import Mathlib

/-!
Shallow embedding of the GrantProgram core library (src/lib.rs) in Lean 4.

The Rust code consists of:
* `ProcessResult` — `\x7b success: bool, message: String, data: Option<serde_json::Value> \x7d`;
  the `data` value produced by `process` is always the three-field object
  `\x7b "length", "processed_at", "item_number" \x7d`, modelled here by `ProcessData`.
* `GrantProgramProcessor` — `\x7b verbose: bool, processed_count: usize \x7d`.
* `GrantProgramProcessor::new`, `::process`, `::get_stats`.
* `run(verbose, input, output)` — read input file (or use the empty string),
  process once, serialize `get_stats()` and write it to the output file or to
  standard output.

Modelling conventions:
* `usize` is modelled by `Nat` (the counter only ever grows by `+= 1`).
* Rust `data.len()` is the UTF-8 byte length, modelled by `String.utf8ByteSize`.
* `chrono::Utc::now().to_rfc3339()` is an external clock; `process` takes the
  current timestamp string as an explicit argument `now`.
* The fallible `Result` types are modelled by `Except String`.
* The file system is modelled by `FS`: a partial map from paths to readable
  contents plus a writability predicate; `run` returns the trace of its
  observable effects (`RunTrace`: inputs passed to `process`, lines printed to
  standard output, files written) together with its `Except` result.
* `serde_json::to_string(get_stats())` serializes a two-field JSON object whose
  keys are emitted in the order "processed_count", "verbose" (serde_json's
  default BTreeMap ordering is alphabetical); `statsToString` reproduces that
  exact text and `parseStats` parses it back.
-/

/-- The JSON object attached by `process` as `result.data`:
`\x7b "length": data.len(), "processed_at": now, "item_number": count \x7d`. -/
structure ProcessData where
  length : Nat
  processed_at : String
  item_number : Nat
deriving Repr, DecidableEq

/-- Rust `ProcessResult`: success flag, message, optional data. -/
structure ProcessResult where
  success : Bool
  message : String
  data : Option ProcessData
deriving Repr, DecidableEq

/-- Rust `GrantProgramProcessor`: verbosity flag and count of processed items. -/
structure GrantProgramProcessor where
  verbose : Bool
  processed_count : Nat
deriving Repr, DecidableEq

/-- The two-field statistics object returned by `get_stats`:
`\x7b "processed_count": …, "verbose": … \x7d` (exactly these two top-level fields). -/
structure Stats where
  processed_count : Nat
  verbose : Bool
deriving Repr, DecidableEq

/-- Decimal digits of `n`, most significant first, with explicit fuel so that
the recursion is structural (the fuel `n + 1` always suffices since `n / 10 < n`
for `n ≥ 10`). Models the standard decimal rendering used by Rust's
`format!("\x7b\x7d", n)` and by `serde_json` for integers. -/
def natDigitsGo (fuel n : Nat) : List Char :=
  match fuel with
  | 0 => []
  | fuel + 1 =>
    if n < 10 then [Nat.digitChar n]
    else natDigitsGo fuel (n / 10) ++ [Nat.digitChar (n % 10)]

/-- Decimal digits of `n`, most significant first. -/
def natDigits (n : Nat) : List Char := natDigitsGo (n + 1) n

/-- Decimal string of `n`, as printed by Rust. -/
def natRepr (n : Nat) : String := String.mk (natDigits n)

/-- `GrantProgramProcessor::new(verbose)`: constructs with `processed_count = 0`. -/
def GrantProgramProcessor.new (verbose : Bool) : GrantProgramProcessor :=
  { verbose := verbose, processed_count := 0 }

/-- `GrantProgramProcessor::process(&mut self, data)`: increments
`processed_count`, then returns `Ok` of a `ProcessResult` whose message embeds
the new count and whose data records the input byte length, the timestamp and
the new count. State passing makes the `&mut self` explicit: the result pairs
the updated processor with the `ProcessResult`. -/
def GrantProgramProcessor.process (p : GrantProgramProcessor) (data now : String) :
    Except String (GrantProgramProcessor × ProcessResult) :=
  let p2 : GrantProgramProcessor := { p with processed_count := p.processed_count + 1 }
  Except.ok (p2,
    { success := true
      message := "Successfully processed item #" ++ natRepr p2.processed_count
      data := some
        { length := data.utf8ByteSize
          processed_at := now
          item_number := p2.processed_count } })

/-- `GrantProgramProcessor::get_stats(&self)`: a read-only method; modelled in
state-passing style as returning the (unchanged) processor together with the
two-field statistics snapshot. -/
def GrantProgramProcessor.get_stats (p : GrantProgramProcessor) :
    GrantProgramProcessor × Stats :=
  (p, { processed_count := p.processed_count, verbose := p.verbose })

/-- `serde_json::to_string` of the `get_stats()` object: exactly
`\x7b"processed_count":N,"verbose":B\x7d` with no spaces, keys in alphabetical
(= insertion) order. -/
def statsToString (s : Stats) : String :=
  "\x7b\"processed_count\":" ++ natRepr s.processed_count ++ ",\"verbose\":"
    ++ (if s.verbose then "true" else "false") ++ "\x7d"

/-- Drop an expected literal sequence from the front of the input; `none` when
the input does not start with it. -/
def dropPrefixChars : List Char → List Char → Option (List Char)
  | [], cs => some cs
  | _ :: _, [] => none
  | e :: es, c :: cs => if c = e then dropPrefixChars es cs else none

/-- Split the input at the first non-digit character. -/
def takeDigits : List Char → List Char × List Char
  | [] => ([], [])
  | c :: cs =>
    if c.isDigit then
      let r := takeDigits cs
      (c :: r.1, r.2)
    else ([], c :: cs)

/-- Decimal value of a digit sequence (most significant first), accumulator
style. -/
def digitsVal : List Char → Nat → Nat
  | [], acc => acc
  | c :: cs, acc => digitsVal cs (acc * 10 + (c.toNat - 48))

/-- Parse the final `true\x7d` or `false\x7d` of the statistics JSON text. -/
def parseStatsTail (rest3 : List Char) : Option Bool :=
  match dropPrefixChars ("true\x7d".data) rest3 with
  | some [] => some true
  | _ =>
    match dropPrefixChars ("false\x7d".data) rest3 with
    | some [] => some false
    | _ => none

/-- Parse `N,"verbose":B\x7d` (the statistics JSON text after its fixed opening)
into a `Stats` value. -/
def parseStatsNum (rest : List Char) : Option Stats :=
  match takeDigits rest with
  | ([], _) => none
  | (ds, rest2) =>
    match dropPrefixChars (",\"verbose\":".data) rest2 with
    | none => none
    | some rest3 =>
      match parseStatsTail rest3 with
      | some b => some { processed_count := digitsVal ds 0, verbose := b }
      | none => none

/-- Parse the statistics JSON text `\x7b"processed_count":N,"verbose":B\x7d`
back into a `Stats` value (models `serde_json::from_str` on this shape). -/
def parseStats (s : String) : Option Stats :=
  match dropPrefixChars ("\x7b\"processed_count\":".data) s.data with
  | none => none
  | some rest => parseStatsNum rest

/-- The processor state after one `process` call (the `ProcessResult` is
discarded; the error branch is dead code since `process` always returns `Ok`). -/
def afterProcess (p : GrantProgramProcessor) (d t : String) : GrantProgramProcessor :=
  match p.process d t with
  | Except.ok (p2, _) => p2
  | Except.error _ => p

/-- Sequentially process a list of (data, timestamp) pairs. -/
def processN (p : GrantProgramProcessor) : List (String × String) → GrantProgramProcessor
  | [] => p
  | (d, t) :: rest => processN (afterProcess p d t) rest

/-- The file-system model: readable file contents by path, and which paths can
be written. -/
structure FS where
  files : String → Option String
  writable : String → Bool

/-- Observable effects of one `run` call: the inputs passed to
`GrantProgramProcessor::process` (in order), the lines printed to standard
output, and the `(path, contents)` pairs written to files. -/
structure RunTrace where
  processCalls : List String
  stdout : List String
  written : List (String × String)
deriving Repr, DecidableEq

/-- `run(verbose, input, output)` from src/lib.rs: construct a fresh processor,
read the input file (or use the empty string when no path is given; standard
input is never read), process once, serialize `get_stats()` and write it to the
output path or print it to standard output. Any I/O error aborts the run. The
result pairs the effect trace with the Rust `Result<()>`. -/
def run (verbose : Bool) (input output : Option String) (fs : FS) (now : String) :
    RunTrace × Except String Unit :=
  let processor := GrantProgramProcessor.new verbose
  let readRes : Except String String :=
    match input with
    | some path =>
      match fs.files path with
      | some contents => Except.ok contents
      | none => Except.error ("input read error: " ++ path)
    | none => Except.ok ""
  match readRes with
  | Except.error e =>
    ({ processCalls := [], stdout := [], written := [] }, Except.error e)
  | Except.ok input_data =>
    match processor.process input_data now with
    | Except.error e =>
      ({ processCalls := [input_data], stdout := [], written := [] }, Except.error e)
    | Except.ok (p2, _res) =>
      let output_data := statsToString (p2.get_stats).2
      match output with
      | some output_path =>
        if fs.writable output_path then
          ({ processCalls := [input_data], stdout := [],
             written := [(output_path, output_data)] }, Except.ok ())
        else
          ({ processCalls := [input_data], stdout := [], written := [] },
            Except.error ("output write error: " ++ output_path))
      | none =>
        ({ processCalls := [input_data], stdout := [output_data], written := [] },
          Except.ok ())

/-- A concrete file system with one readable file, everything writable. -/
def testFS : FS :=
  { files := fun p => if p = "in.txt" then some "hello" else none
    writable := fun _ => true }

/-- A concrete file system with no readable files. -/
def emptyFS : FS :=
  { files := fun _ => none, writable := fun _ => true }

/-! ### Helper lemmas -/

theorem digitChar_isDigit (d : Nat) (h : d < 10) : (Nat.digitChar d).isDigit = true := by
  interval_cases d <;> rfl

theorem digitChar_toNat48 (d : Nat) (h : d < 10) : (Nat.digitChar d).toNat - 48 = d := by
  interval_cases d <;> rfl

theorem natDigitsGo_mem_isDigit (fuel : Nat) :
    ∀ n, n < fuel → ∀ c ∈ natDigitsGo fuel n, c.isDigit = true := by
  induction fuel with
  | zero => intro n hn; omega
  | succ fuel ih =>
    intro n hn c hc
    rw [natDigitsGo] at hc
    by_cases h10 : n < 10
    · simp only [if_pos h10, List.mem_singleton] at hc
      subst hc
      exact digitChar_isDigit n h10
    · simp only [if_neg h10, List.mem_append, List.mem_singleton] at hc
      rcases hc with hc | hc
      · have hdiv : n / 10 < n := Nat.div_lt_self (by omega) (by norm_num)
        exact ih (n / 10) (by omega) c hc
      · subst hc
        exact digitChar_isDigit (n % 10) (Nat.mod_lt n (by omega))

theorem digitsVal_append (xs ys : List Char) (acc : Nat) :
    digitsVal (xs ++ ys) acc = digitsVal ys (digitsVal xs acc) := by
  induction xs generalizing acc with
  | nil => rfl
  | cons c cs ih =>
    show digitsVal (cs ++ ys) (acc * 10 + (c.toNat - 48)) =
      digitsVal ys (digitsVal cs (acc * 10 + (c.toNat - 48)))
    exact ih _

theorem natDigitsGo_val (fuel : Nat) :
    ∀ n, n < fuel → digitsVal (natDigitsGo fuel n) 0 = n := by
  induction fuel with
  | zero => intro n hn; omega
  | succ fuel ih =>
    intro n hn
    rw [natDigitsGo]
    by_cases h10 : n < 10
    · simp only [if_pos h10, digitsVal]
      rw [digitChar_toNat48 n h10]
      omega
    · simp only [if_neg h10]
      rw [digitsVal_append]
      have hdiv : n / 10 < n := Nat.div_lt_self (by omega) (by norm_num)
      rw [ih (n / 10) (by omega)]
      simp only [digitsVal]
      rw [digitChar_toNat48 (n % 10) (Nat.mod_lt n (by omega))]
      omega

theorem natDigits_mem_isDigit (n : Nat) : ∀ c ∈ natDigits n, c.isDigit = true :=
  natDigitsGo_mem_isDigit (n + 1) n (Nat.lt_succ_self n)

theorem digitsVal_natDigits (n : Nat) : digitsVal (natDigits n) 0 = n :=
  natDigitsGo_val (n + 1) n (Nat.lt_succ_self n)

theorem natDigits_ne_nil (n : Nat) : natDigits n ≠ [] := by
  unfold natDigits natDigitsGo
  split <;> simp

theorem dropPrefixChars_append (xs ys : List Char) :
    dropPrefixChars xs (xs ++ ys) = some ys := by
  induction xs with
  | nil => rfl
  | cons c cs ih => simp [dropPrefixChars, ih]

theorem takeDigits_append (ds rest : List Char)
    (hds : ∀ c ∈ ds, c.isDigit = true)
    (hrest : ∀ c, rest.head? = some c → c.isDigit = false) :
    takeDigits (ds ++ rest) = (ds, rest) := by
  induction ds with
  | nil =>
    cases rest with
    | nil => rfl
    | cons c cs =>
      simp only [List.nil_append, takeDigits]
      rw [hrest c rfl]
      simp
  | cons d ds ih =>
    have hd : d.isDigit = true := hds d (List.mem_cons_self d ds)
    have h := ih (fun c hc => hds c (List.mem_cons_of_mem d hc))
    show (if d.isDigit then
        (d :: (takeDigits (ds ++ rest)).1, (takeDigits (ds ++ rest)).2)
      else ([], d :: (ds ++ rest))) = (d :: ds, rest)
    rw [hd, if_pos rfl, h]

theorem string_data_append (a b : String) : (a ++ b).data = a.data ++ b.data := rfl

theorem afterProcess_count (p : GrantProgramProcessor) (d t : String) :
    (afterProcess p d t).processed_count = p.processed_count + 1 := rfl

theorem processN_count (p : GrantProgramProcessor) (l : List (String × String)) :
    (processN p l).processed_count = p.processed_count + l.length := by
  induction l generalizing p with
  | nil => simp [processN]
  | cons x xs ih =>
    cases x with
    | mk d t =>
      simp only [processN, List.length_cons]
      rw [ih, afterProcess_count]
      omega

theorem parseStatsNum_eq (n : Nat) (tail : List Char) (b : Bool)
    (htail : parseStatsTail tail = some b) :
    parseStatsNum (natDigits n ++ (",\"verbose\":".data ++ tail)) =
      some { processed_count := n, verbose := b } := by
  have hsplit : takeDigits (natDigits n ++ (",\"verbose\":".data ++ tail)) =
      (natDigits n, ",\"verbose\":".data ++ tail) := by
    refine takeDigits_append _ _ (natDigits_mem_isDigit n) ?_
    intro c hc
    rw [show ((",\"verbose\":".data ++ tail).head?) = some ',' from rfl] at hc
    injection hc with h
    subst h
    rfl
  obtain ⟨c, cs, hcs⟩ : ∃ c cs, natDigits n = c :: cs := by
    cases h : natDigits n with
    | nil => exact absurd h (natDigits_ne_nil n)
    | cons c cs => exact ⟨c, cs, rfl⟩
  have hval : digitsVal (c :: cs) 0 = n := by rw [← hcs]; exact digitsVal_natDigits n
  unfold parseStatsNum
  rw [hsplit, hcs]
  simp only [dropPrefixChars_append, htail, hval]

theorem parseStats_statsToString (n : Nat) (b : Bool) :
    parseStats (statsToString { processed_count := n, verbose := b }) =
      some { processed_count := n, verbose := b } := by
  cases b with
  | false =>
    have hdata : (statsToString { processed_count := n, verbose := false }).data =
        "\x7b\"processed_count\":".data ++
          (natDigits n ++ (",\"verbose\":".data ++ ("false".data ++ "\x7d".data))) := by
      simp [statsToString, natRepr, string_data_append, List.append_assoc]
    unfold parseStats
    rw [hdata, dropPrefixChars_append]
    exact parseStatsNum_eq n _ false rfl
  | true =>
    have hdata : (statsToString { processed_count := n, verbose := true }).data =
        "\x7b\"processed_count\":".data ++
          (natDigits n ++ (",\"verbose\":".data ++ ("true".data ++ "\x7d".data))) := by
      simp [statsToString, natRepr, string_data_append, List.append_assoc]
    unfold parseStats
    rw [hdata, dropPrefixChars_append]
    exact parseStatsNum_eq n _ true rfl

theorem run_none_input (v : Bool) (fs : FS) (now : String) :
    run v none none fs now =
      ({ processCalls := [""],
         stdout := [statsToString { processed_count := 1, verbose := v }],
         written := [] }, Except.ok ()) := rfl

theorem run_none_input_out (v : Bool) (op : String) (fs : FS) (now : String)
    (hw : fs.writable op = true) :
    run v none (some op) fs now =
      ({ processCalls := [""], stdout := [],
         written := [(op, statsToString { processed_count := 1, verbose := v })] },
        Except.ok ()) := by
  simp only [run, hw]
  rfl

theorem run_none_input_nowrite (v : Bool) (op : String) (fs : FS) (now : String)
    (hw : fs.writable op = false) :
    run v none (some op) fs now =
      ({ processCalls := [""], stdout := [], written := [] },
        Except.error ("output write error: " ++ op)) := by
  simp only [run, hw]
  rfl

theorem run_some_input (v : Bool) (inpath : String) (fs : FS) (now txt : String)
    (hread : fs.files inpath = some txt) :
    run v (some inpath) none fs now =
      ({ processCalls := [txt],
         stdout := [statsToString { processed_count := 1, verbose := v }],
         written := [] }, Except.ok ()) := by
  simp only [run, hread]
  rfl

theorem run_some_input_out (v : Bool) (inpath op : String) (fs : FS) (now txt : String)
    (hread : fs.files inpath = some txt) (hw : fs.writable op = true) :
    run v (some inpath) (some op) fs now =
      ({ processCalls := [txt], stdout := [],
         written := [(op, statsToString { processed_count := 1, verbose := v })] },
        Except.ok ()) := by
  simp only [run, hread, hw]
  rfl

theorem run_some_input_nowrite (v : Bool) (inpath op : String) (fs : FS) (now txt : String)
    (hread : fs.files inpath = some txt) (hw : fs.writable op = false) :
    run v (some inpath) (some op) fs now =
      ({ processCalls := [txt], stdout := [], written := [] },
        Except.error ("output write error: " ++ op)) := by
  simp only [run, hread, hw]
  rfl

theorem run_missing_input (v : Bool) (inpath : String) (out : Option String)
    (fs : FS) (now : String) (hread : fs.files inpath = none) :
    run v (some inpath) out fs now =
      ({ processCalls := [], stdout := [], written := [] },
        Except.error ("input read error: " ++ inpath)) := by
  simp only [run, hread]

/-! ### Claims -/

/-- C1: for every input string `s`, calling `process` once on a freshly
constructed processor (`new(verbose)`, `processed_count = 0`) returns `Ok` of
the updated processor with `processed_count = 1` and a result whose message
embeds the new count (`item #1`) and whose data records the input length
`len(s)` (UTF-8 bytes) and the count `1`. -/
theorem process_fresh_spec (verbose : Bool) (s now : String) :
    GrantProgramProcessor.process (GrantProgramProcessor.new verbose) s now =
      Except.ok ({ verbose := verbose, processed_count := 1 },
        { success := true
          message := "Successfully processed item #1"
          data := some
            { length := s.utf8ByteSize
              processed_at := now
              item_number := 1 } }) := rfl

/-- C2: n sequential `process` calls on a fresh processor yield
`processed_count = n`; over any state each call increases `processed_count` by
exactly 1 (so it never decreases, and as a `Nat` it is never negative). -/
theorem processed_count_invariant (verbose : Bool) (inputs : List (String × String))
    (p : GrantProgramProcessor) (d t : String) :
    (processN (GrantProgramProcessor.new verbose) inputs).processed_count = inputs.length
    ∧ (processN p inputs).processed_count = p.processed_count + inputs.length
    ∧ (afterProcess p d t).processed_count = p.processed_count + 1 := by
  refine ⟨?_, processN_count p inputs, afterProcess_count p d t⟩
  rw [processN_count]
  simp [GrantProgramProcessor.new]

/-- C3: `process` returns `Ok` for every input string and every processor
state — no error condition originates in `process` — and the returned
`ProcessResult` has `success = true`. -/
theorem process_always_ok (p : GrantProgramProcessor) (s now : String) :
    ∃ pr : GrantProgramProcessor × ProcessResult,
      p.process s now = Except.ok pr ∧ pr.2.success = true :=
  ⟨_, rfl, rfl⟩

/-- C6: `get_stats` is a pure read: it leaves the processor (both `verbose` and
`processed_count`) unchanged, and the snapshot it returns is exactly the
two-field object `\x7b processed_count, verbose \x7d` reflecting the current
count and the construction-time flag. -/
theorem get_stats_pure (p : GrantProgramProcessor) :
    (p.get_stats).1 = p
    ∧ (p.get_stats).2 =
        { processed_count := p.processed_count, verbose := p.verbose } :=
  ⟨rfl, rfl⟩

/-- C7: serializing the result of `get_stats()` to JSON text and parsing that
text back yields the same `\x7b processed_count, verbose \x7d` pair as the
original state. -/
theorem stats_roundtrip (p : GrantProgramProcessor) :
    parseStats (statsToString (p.get_stats).2) =
      some { processed_count := p.processed_count, verbose := p.verbose } :=
  parseStats_statsToString p.processed_count p.verbose

/-- C9: every `ProcessResult` returned by `process` has `success = true`,
`data = Some …` (never `None`), and message exactly
`"Successfully processed item #N"` with `N` the post-increment count. -/
theorem process_result_shape (p : GrantProgramProcessor) (s now : String) :
    ∃ p2 r, p.process s now = Except.ok (p2, r)
      ∧ r.success = true
      ∧ r.data = some
          { length := s.utf8ByteSize
            processed_at := now
            item_number := p.processed_count + 1 }
      ∧ r.message = "Successfully processed item #" ++ natRepr (p.processed_count + 1)
      ∧ p2.processed_count = p.processed_count + 1 :=
  ⟨_, _, rfl, rfl, rfl, rfl, rfl⟩

/-- C4: with `verbose = false`, a successful `run` emits exactly the JSON text
`\x7b"processed_count":1,"verbose":false\x7d`: printed to standard output when
no output path is given, and written as the exact content of the output file
when an output path is given, with `run` returning success. -/
theorem run_emits_exact_json (fs : FS) (now inpath outpath txt : String)
    (hread : fs.files inpath = some txt) (hw : fs.writable outpath = true) :
    run false none none fs now =
      ({ processCalls := [""],
         stdout := ["\x7b\"processed_count\":1,\"verbose\":false\x7d"],
         written := [] }, Except.ok ())
    ∧ run false (some inpath) (some outpath) fs now =
      ({ processCalls := [txt], stdout := [],
         written := [(outpath, "\x7b\"processed_count\":1,\"verbose\":false\x7d")] },
        Except.ok ()) :=
  ⟨rfl, run_some_input_out false inpath outpath fs now txt hread hw⟩

/-- C4 witness: the two scenarios at a concrete file system (`in.txt` contains
`hello`, every path writable). -/
theorem run_emits_exact_json_witness :
    run false none none testFS "t0" =
      ({ processCalls := [""],
         stdout := ["\x7b\"processed_count\":1,\"verbose\":false\x7d"],
         written := [] }, Except.ok ())
    ∧ run false (some "in.txt") (some "out.json") testFS "t0" =
      ({ processCalls := ["hello"], stdout := [],
         written := [("out.json", "\x7b\"processed_count\":1,\"verbose\":false\x7d")] },
        Except.ok ()) :=
  run_emits_exact_json testFS "t0" "in.txt" "out.json" "hello" rfl rfl

/-- C5: when the input file is missing, `run` returns a failure with an empty
effect trace (nothing printed, nothing written, `process` never called); and in
general every `run` that ends in an error has produced no output on standard
output and written no file. -/
theorem missing_input_aborts (v v2 : Bool) (inpath : String)
    (out inp2 out2 : Option String) (fs fs2 : FS) (now now2 : String)
    (tr : RunTrace) (e : String)
    (hread : fs.files inpath = none)
    (herr : run v2 inp2 out2 fs2 now2 = (tr, Except.error e)) :
    run v (some inpath) out fs now =
      ({ processCalls := [], stdout := [], written := [] },
        Except.error ("input read error: " ++ inpath))
    ∧ tr.stdout = [] ∧ tr.written = [] := by
  refine ⟨run_missing_input v inpath out fs now hread, ?_⟩
  cases inp2 with
  | none =>
    cases out2 with
    | none =>
      rw [run_none_input v2 fs2 now2] at herr
      simp at herr
    | some op =>
      cases hwr : fs2.writable op with
      | true =>
        rw [run_none_input_out v2 op fs2 now2 hwr] at herr
        simp at herr
      | false =>
        rw [run_none_input_nowrite v2 op fs2 now2 hwr] at herr
        simp at herr
        obtain ⟨h1, -⟩ := herr
        rw [← h1]
        exact ⟨rfl, rfl⟩
  | some path =>
    cases hfp : fs2.files path with
    | none =>
      rw [run_missing_input v2 path out2 fs2 now2 hfp] at herr
      simp at herr
      obtain ⟨h1, -⟩ := herr
      rw [← h1]
      exact ⟨rfl, rfl⟩
    | some txt2 =>
      cases out2 with
      | none =>
        rw [run_some_input v2 path fs2 now2 txt2 hfp] at herr
        simp at herr
      | some op =>
        cases hwr : fs2.writable op with
        | true =>
          rw [run_some_input_out v2 path op fs2 now2 txt2 hfp hwr] at herr
          simp at herr
        | false =>
          rw [run_some_input_nowrite v2 path op fs2 now2 txt2 hfp hwr] at herr
          simp at herr
          obtain ⟨h1, -⟩ := herr
          rw [← h1]
          exact ⟨rfl, rfl⟩

/-- C5 witness: the missing-file scenario at a concrete file system with no
readable files (both the aborted run and its empty trace). -/
theorem missing_input_aborts_witness :
    run true (some "missing.txt") none emptyFS "t0" =
      ({ processCalls := [], stdout := [], written := [] },
        Except.error ("input read error: " ++ "missing.txt"))
    ∧ ({ processCalls := [], stdout := [], written := [] } : RunTrace).stdout = []
    ∧ ({ processCalls := [], stdout := [], written := [] } : RunTrace).written = [] :=
  missing_input_aborts true true "missing.txt" none (some "missing.txt") none
    emptyFS emptyFS "t0" "t0"
    { processCalls := [], stdout := [], written := [] }
    ("input read error: " ++ "missing.txt") rfl rfl

/-- C8: every `run` invokes `process` at most once, exactly once on the success
path, and when no input path is given the input passed to `process` is the
empty string (standard input is never read). -/
theorem run_invokes_process_once (v : Bool) (inp out : Option String) (fs : FS)
    (now : String) (tr : RunTrace) (r : Except String Unit)
    (h : run v inp out fs now = (tr, r)) :
    tr.processCalls.length ≤ 1
    ∧ (r = Except.ok () → tr.processCalls.length = 1)
    ∧ (inp = none → tr.processCalls = [""]) := by
  cases inp with
  | none =>
    cases out with
    | none =>
      rw [run_none_input v fs now] at h
      simp only [Prod.mk.injEq] at h
      obtain ⟨h1, h2⟩ := h
      rw [← h1]
      exact ⟨by simp, fun _ => rfl, fun _ => rfl⟩
    | some op =>
      cases hwr : fs.writable op with
      | true =>
        rw [run_none_input_out v op fs now hwr] at h
        simp only [Prod.mk.injEq] at h
        obtain ⟨h1, h2⟩ := h
        rw [← h1]
        exact ⟨by simp, fun _ => rfl, fun _ => rfl⟩
      | false =>
        rw [run_none_input_nowrite v op fs now hwr] at h
        simp only [Prod.mk.injEq] at h
        obtain ⟨h1, h2⟩ := h
        rw [← h1, ← h2]
        exact ⟨by simp, fun habs => by simp at habs, fun _ => rfl⟩
  | some path =>
    cases hfp : fs.files path with
    | none =>
      rw [run_missing_input v path out fs now hfp] at h
      simp only [Prod.mk.injEq] at h
      obtain ⟨h1, h2⟩ := h
      rw [← h1, ← h2]
      exact ⟨by simp, fun habs => by simp at habs, fun habs => by simp at habs⟩
    | some txt =>
      cases out with
      | none =>
        rw [run_some_input v path fs now txt hfp] at h
        simp only [Prod.mk.injEq] at h
        obtain ⟨h1, h2⟩ := h
        rw [← h1]
        exact ⟨by simp, fun _ => rfl, fun habs => by simp at habs⟩
      | some op =>
        cases hwr : fs.writable op with
        | true =>
          rw [run_some_input_out v path op fs now txt hfp hwr] at h
          simp only [Prod.mk.injEq] at h
          obtain ⟨h1, h2⟩ := h
          rw [← h1]
          exact ⟨by simp, fun _ => rfl, fun habs => by simp at habs⟩
        | false =>
          rw [run_some_input_nowrite v path op fs now txt hfp hwr] at h
          simp only [Prod.mk.injEq] at h
          obtain ⟨h1, h2⟩ := h
          rw [← h1, ← h2]
          exact ⟨by simp, fun habs => by simp at habs, fun habs => by simp at habs⟩

/-- C8 witness: the no-input-path run at a concrete file system. -/
theorem run_invokes_process_once_witness :
    ({ processCalls := [""],
       stdout := [statsToString { processed_count := 1, verbose := false }],
       written := [] } : RunTrace).processCalls.length ≤ 1
    ∧ ((Except.ok () : Except String Unit) = Except.ok () →
        ({ processCalls := [""],
           stdout := [statsToString { processed_count := 1, verbose := false }],
           written := [] } : RunTrace).processCalls.length = 1)
    ∧ ((none : Option String) = none →
        ({ processCalls := [""],
           stdout := [statsToString { processed_count := 1, verbose := false }],
           written := [] } : RunTrace).processCalls = [""]) :=
  run_invokes_process_once false none none emptyFS "t0"
    { processCalls := [""],
      stdout := [statsToString { processed_count := 1, verbose := false }],
      written := [] }
    (Except.ok ()) rfl

/-- C10: every successful `run`, whatever the input file contains, emits exactly
one piece of output — the stats JSON for `processed_count = 1` and the `verbose`
argument — either as the single standard-output line or as the single written
file's contents. -/
theorem run_output_stats (v : Bool) (inp out : Option String) (fs : FS)
    (now : String) (tr : RunTrace)
    (h : run v inp out fs now = (tr, Except.ok ())) :
    tr.stdout ++ tr.written.map Prod.snd =
      [statsToString { processed_count := 1, verbose := v }] := by
  cases inp with
  | none =>
    cases out with
    | none =>
      rw [run_none_input v fs now] at h
      simp only [Prod.mk.injEq] at h
      obtain ⟨h1, -⟩ := h
      rw [← h1]
      rfl
    | some op =>
      cases hwr : fs.writable op with
      | true =>
        rw [run_none_input_out v op fs now hwr] at h
        simp only [Prod.mk.injEq] at h
        obtain ⟨h1, -⟩ := h
        rw [← h1]
        rfl
      | false =>
        rw [run_none_input_nowrite v op fs now hwr] at h
        simp at h
  | some path =>
    cases hfp : fs.files path with
    | none =>
      rw [run_missing_input v path out fs now hfp] at h
      simp at h
    | some txt =>
      cases out with
      | none =>
        rw [run_some_input v path fs now txt hfp] at h
        simp only [Prod.mk.injEq] at h
        obtain ⟨h1, -⟩ := h
        rw [← h1]
        rfl
      | some op =>
        cases hwr : fs.writable op with
        | true =>
          rw [run_some_input_out v path op fs now txt hfp hwr] at h
          simp only [Prod.mk.injEq] at h
          obtain ⟨h1, -⟩ := h
          rw [← h1]
          rfl
        | false =>
          rw [run_some_input_nowrite v path op fs now txt hfp hwr] at h
          simp at h

/-- C10 witness: the no-input no-output-path run at a concrete file system. -/
theorem run_output_stats_witness :
    ([statsToString { processed_count := 1, verbose := false }] : List String)
      ++ ([] : List (String × String)).map Prod.snd =
      [statsToString { processed_count := 1, verbose := false }] :=
  run_output_stats false none none emptyFS "t0"
    { processCalls := [""],
      stdout := [statsToString { processed_count := 1, verbose := false }],
      written := [] } rfl
